import Mathlib

/-!
Shallow embedding of the task-orchestration scripts
`scripts/agentflow.py` and `scripts/agent_csv_runner.py`.

Python strings are modelled as Lean `String`, parsed JSON values as the
inductive `JVal` below, and per-invocation effects (spawned processes,
filesystem writes) as explicit oracles and operation traces.  All
definitions are executable so that concrete runs can be settled by
`decide` / `rfl`.
-/

/-! ## Python string primitives -/

/-- The whitespace set stripped by Python `str.strip()` (ASCII portion). -/
def isPySpace (c : Char) : Bool :=
  c = ' ' || c = '\t' || c = '\n' || c = '\r' || c = '\x0b' || c = '\x0c'

/-- Drop characters satisfying `p` from both ends of a character list. -/
def stripWithL (p : Char → Bool) (l : List Char) : List Char :=
  ((l.dropWhile p).reverse.dropWhile p).reverse

/-- Python `str.strip(chars)` restricted to a character predicate. -/
def pyStripWith (p : Char → Bool) (s : String) : String :=
  String.mk (stripWithL p s.data)

/-- Python `str.strip()` (strip whitespace from both ends). -/
def pyStrip (s : String) : String := pyStripWith isPySpace s

/-- Split a character list at every occurrence of `c` (Python `str.split(c)`
for a one-character separator). -/
def splitChar (c : Char) : List Char → List (List Char)
  | [] => [[]]
  | x :: xs =>
    if x = c then [] :: splitChar c xs
    else
      match splitChar c xs with
      | [] => [[x]]
      | y :: ys => (x :: y) :: ys

/-- Join character lists with separator `c` (inverse of `splitChar`). -/
def joinChar (c : Char) : List (List Char) → List Char
  | [] => []
  | [x] => x
  | x :: y :: ys => x ++ c :: joinChar c (y :: ys)

/-- ASCII lower-casing of one character, as Python `str.lower()` does for
the ASCII range used by the scripts. -/
def pyLowerChar (c : Char) : Char :=
  if 'A' ≤ c ∧ c ≤ 'Z' then Char.ofNat (c.toNat + 32) else c

/-- Python `str.lower()` (ASCII range). -/
def pyLower (s : String) : String := String.mk (s.data.map pyLowerChar)

/-- Python `s[:n]`-style character take, used to model partially performed
file writes. -/
def takeChars (n : Nat) (s : String) : String := String.mk (s.data.take n)

/-! ## Parsed JSON values

`JVal` stands for the result of `json.loads`.  `jget` is `dict.get` (with
`none` for a missing key), `truthy` is Python truthiness, `pyStr` is
`str()` (the exact text of the `dict`/`list` representations is never
inspected by the scripts, only compared against known literals or tested
for emptiness). -/

inductive JVal where
  | jnull : JVal
  | jbool : Bool → JVal
  | jnum : Int → JVal
  | jstr : String → JVal
  | jarr : List JVal → JVal
  | jobj : List (String × JVal) → JVal

/-- First-match association lookup, modelling `dict.get` on parsed JSON
(whose keys are unique). -/
def lookupStr (k : String) : List (String × JVal) → Option JVal
  | [] => none
  | (k2, v) :: rest => if k2 = k then some v else lookupStr k rest

/-- Python `obj.get(k)` for a parsed JSON object; `none` when absent. -/
def jget : JVal → String → Option JVal
  | .jobj fs, k => lookupStr k fs
  | _, _ => none

/-- Python `obj.get(k, d)`: the default applies only when the key is
absent (a present `null` is returned as-is). -/
def jgetD (o : JVal) (k : String) (d : JVal) : JVal :=
  match jget o k with
  | some v => v
  | none => d

/-- Python truthiness of a parsed JSON value. -/
def truthy : JVal → Bool
  | .jnull => false
  | .jbool b => b
  | .jnum n => n ≠ 0
  | .jstr s => s ≠ ""
  | .jarr xs => !xs.isEmpty
  | .jobj fs => !fs.isEmpty

/-- Python `str()` of a parsed JSON value.  The container representations
are abbreviated: the scripts never branch on their text, only on
emptiness, and both are non-empty in Python as they are here. -/
def pyStr : JVal → String
  | .jnull => "None"
  | .jbool b => if b then "True" else "False"
  | .jnum n => toString n
  | .jstr s => s
  | .jarr _ => "[...]"
  | .jobj _ => "\x7b...\x7d"

/-- Python `x or d` for an optional JSON value against a JSON default. -/
def pyOr (a : Option JVal) (d : JVal) : JVal :=
  match a with
  | some v => if truthy v then v else d
  | none => d

/-- Python `x or d` for an optional string against a string default. -/
def pyOrS (a : Option String) (d : String) : String :=
  match a with
  | some s => if s ≠ "" then s else d
  | none => d

/-! ## `agent_csv_runner.py`: the streamed gemini backend
(`AgentRunner.gemini_run`, `stream-json` branch)

A consumed line is either an unparsable line (`none`, skipped by the
`json.loads` guard) or the field list of the parsed event object. -/

/-- One line of streamed output after the `json.loads` attempt. -/
def GLine : Type := Option (List (String × JVal))

/-- The mutable state threaded through `handle_line`: the captured
session id, the status of the last `result` event, the accumulated
`error` event messages, and the assistant text chunks. -/
structure GStream where
  sessionId : Option String
  resultStatus : Option String
  errors : List String
  chunks : List String
deriving DecidableEq

/-- Initial stream state; the session id starts as the session already
held for the task (`self.sessions.gemini_session_id`). -/
def gInit (prior : Option String) : GStream :=
  ⟨prior, none, [], []⟩

/-- Model of `handle_line` in `AgentRunner.gemini_run`: dispatch on the event
`type`.  `init` captures a truthy `session_id`; `error` appends
`str(evt.get("message") or evt)`; assistant `message` events accumulate
text; `result` retains the lower-cased status of the (last) result
event; `tool_use` / `tool_result` and unknown types are progress-only. -/
def handle_line (st : GStream) (line : GLine) : GStream :=
  match line with
  | none => st
  | some fs =>
    let evt := JVal.jobj fs
    match jget evt "type" with
    | some (.jstr t) =>
      if t = "init" then
        match jget evt "session_id" with
        | some sid => if truthy sid then { st with sessionId := some (pyStr sid) } else st
        | none => st
      else if t = "error" then
        { st with errors := st.errors ++ [pyStr (pyOr (jget evt "message") evt)] }
      else if t = "message" then
        match jget evt "role" with
        | some (.jstr "assistant") =>
          { st with chunks := st.chunks ++ [pyStr (pyOr (jget evt "content") (.jstr ""))] }
        | _ => st
      else if t = "result" then
        { st with resultStatus := some (pyLower (pyStr (pyOr (jget evt "status") (.jstr "")))) }
      else st
    | _ => st

/-- Fold the stream handler over the consumed lines. -/
def gFold (prior : Option String) (lines : List GLine) : GStream :=
  lines.foldl handle_line (gInit prior)

/-- The `if result_status and result_status != "success"` test: a retained
status is fatal when it is non-empty and differs from `"success"`. -/
def statusFails (o : Option String) : Bool :=
  match o with
  | some s => !(s == "") && !(s == "success")
  | none => false

/-- The effective return code computed after the stream ends: a non-zero
process exit is kept; at exit 0 a fatal result status, or any recorded
error event, forces 1. -/
def geminiStreamEffectiveRc (rc : Int) (st : GStream) : Int :=
  if rc ≠ 0 then rc
  else if statusFails st.resultStatus then 1
  else if st.errors.isEmpty then 0
  else 1

/-- Holds (as `true`) iff the line parsed to an event of type `"error"`. -/
def isErrorLine (line : GLine) : Bool :=
  match line with
  | none => false
  | some fs =>
    match jget (JVal.jobj fs) "type" with
    | some (.jstr t) => t = "error"
    | _ => false

/-! ## `agentflow.py`: success determination of the JSON-result backends
(`Engine.run_claude`, `Engine.run_gemini`)

Both functions base `ok` on a zero exit code and then consult the final
payload parsed by `try_parse_json_object` (modelled as an `Option JVal`:
`none` when no JSON object could be recovered from the output). -/

/-- Model of `Engine.run_claude`: `ok = (rc == 0)`, overridden to `False` when the
parsed payload has `is_error is True` or `subtype == "error"`. -/
def run_claude_ok (rc : Int) (parsed : Option JVal) : Bool :=
  match parsed with
  | some (.jobj fs) =>
    let isErr :=
      (match jget (JVal.jobj fs) "is_error" with
       | some (.jbool true) => true
       | _ => false)
      ||
      (match jget (JVal.jobj fs) "subtype" with
       | some (.jstr s) => s = "error"
       | _ => false)
    decide (rc = 0) && !isErr
  | _ => decide (rc = 0)

/-- Model of `Engine.run_gemini`: `ok = (rc == 0)`, overridden to `False` when the
parsed payload has a truthy `error` field. -/
def run_gemini_ok (rc : Int) (parsed : Option JVal) : Bool :=
  match parsed with
  | some (.jobj fs) =>
    let errT :=
      match jget (JVal.jobj fs) "error" with
      | some v => truthy v
      | none => false
    decide (rc = 0) && !errT
  | _ => decide (rc = 0)

/-! ## `agent_csv_runner.py`: the gemini JSON (non-streamed) branch of
`AgentRunner.gemini_run`

The code parses stdout only when it starts with a brace, builds
`error_summary` from a truthy `error` field (or from the exception
raised while handling a malformed payload), and forces the effective
return code to 1 when a summary exists at exit code 0. -/

/-- The `error_summary` computed by the JSON branch.  `startsBrace`
models `rr.stdout.strip().startswith("{")`; `parsed` is the `json.loads`
result (`none`: the parse raised, which the `except` turns into a
parse-error summary).  When the `error` value is not an object, or a
truthy `response` is not a string, the attribute access raises and the
`except` clause likewise produces a parse-error summary. -/
def csv_gemini_json_summary (startsBrace : Bool) (parsed : Option JVal) : String :=
  if startsBrace then
    match parsed with
    | none => "JSON parse error: invalid JSON"
    | some obj =>
      let base :=
        match jget obj "error" with
        | some ev =>
          if truthy ev then
            match ev with
            | .jobj _ =>
              pyStrip (pyStr (jgetD ev "type" (.jstr "Error")) ++ ": "
                        ++ pyStr (jgetD ev "message" (.jstr "")))
            | _ => "JSON parse error: AttributeError"
          else ""
        | none => ""
      match jget obj "response" with
      | some v =>
        if truthy v then
          match v with
          | .jstr _ => base
          | _ => "JSON parse error: AttributeError"
        else base
      | none => base
  else ""

/-- The effective return code of the JSON branch: a non-empty
`error_summary` at exit code 0 becomes 1, otherwise the process exit
code stands. -/
def csv_gemini_json_rc (rc : Int) (startsBrace : Bool) (parsed : Option JVal) : Int :=
  let s := csv_gemini_json_summary startsBrace parsed
  if s ≠ "" ∧ rc = 0 then 1 else rc

/-! ## `agent_csv_runner.py`: `run_verify`

The named checks run in the fixed order `format`, `lint`, `test`;
blank-after-strip commands are skipped; every remaining check runs
regardless of earlier failures, and each non-zero exit is collected with
the combined stdout/stderr output.  `exec` is the observed behaviour of
`run(["bash", "-lc", cmd])`: exit code, stdout, stderr. -/

/-- The fixed key order iterated by `run_verify`. -/
def verify_keys : List String := ["format", "lint", "test"]

/-- One pass over the keys, returning both the commands actually
executed (in order) and the collected failures. -/
def run_verifyAux (cmds : String → Option String) (exec : String → Int × String × String) :
    List String → List String × List (String × String)
  | [] => ([], [])
  | key :: rest =>
    let c := pyStrip (pyOrS (cmds key) "")
    if c = "" then run_verifyAux cmds exec rest
    else
      let r := exec c
      let tail := run_verifyAux cmds exec rest
      if r.1 ≠ 0 then
        (c :: tail.1, (c, pyStrip (r.2.1 ++ "\n" ++ r.2.2)) :: tail.2)
      else
        (c :: tail.1, tail.2)

/-- Model of `run_verify`: the returned failure list. -/
def run_verify (cmds : String → Option String) (exec : String → Int × String × String) :
    List (String × String) :=
  (run_verifyAux cmds exec verify_keys).2

/-- The commands `run_verify` executes, in order. -/
def verify_executed (cmds : String → Option String) (exec : String → Int × String × String) :
    List String :=
  (run_verifyAux cmds exec verify_keys).1

/-! ## `agent_csv_runner.py`: task-id validation and the row loop
(`sanitize_task_id`, `main`)

`TASK_ID_RE` is `^[A-Za-z0-9]+(?:-[A-Za-z0-9]+)+$`: two or more
non-empty alphanumeric segments joined by hyphens. -/

/-- ASCII alphanumeric, the character class of `TASK_ID_RE`. -/
def isAlnumA (c : Char) : Bool :=
  ('A' ≤ c && c ≤ 'Z') || ('a' ≤ c && c ≤ 'z') || ('0' ≤ c && c ≤ '9')

/-- Full match of `TASK_ID_RE`. -/
def taskIdMatches (s : String) : Bool :=
  let parts := splitChar '-' s.data
  decide (parts.length ≥ 2) && parts.all (fun p => !p.isEmpty && p.all isAlnumA)

/-- Model of `sanitize_task_id`: strip, reject empty, reject ids that do not
match `TASK_ID_RE`. -/
def sanitize_task_id (s : String) : Except String String :=
  let t := pyStrip s
  if t = "" then .error "Empty task id."
  else if taskIdMatches t then .ok t
  else .error ("Bad task id: " ++ t)

/-- The `--series` value as used: `series.strip().strip("-")`. -/
def seriesNorm (series : String) : String :=
  pyStripWith (fun c => c = '-') (pyStrip series)

/-- The id chosen for a row of the csv runner (1-based row index `idx`):
the id column when present and non-blank, otherwise the positional
`{series}-{idx}` id — either way passed through `sanitize_task_id`. -/
def rowIdRes (series : String) (idx : Nat) (rid : Option String) : Except String String :=
  match rid with
  | some s =>
    if pyStrip s ≠ "" then sanitize_task_id s
    else sanitize_task_id (seriesNorm series ++ "-" ++ toString idx)
  | none => sanitize_task_id (seriesNorm series ++ "-" ++ toString idx)

/-- Holds (as `true`) iff the id resolution succeeded. -/
def rowIdOk (series : String) (idx : Nat) (rid : Option String) : Bool :=
  match rowIdRes series idx rid with
  | .ok _ => true
  | .error _ => false

/-- All rows of a list resolve to valid ids (indices counted from `idx`). -/
def rowsAllOk (series : String) : Nat → List (Option String) → Bool
  | _, [] => true
  | idx, r :: rest => rowIdOk series idx r && rowsAllOk series (idx + 1) rest

/-- The id-relevant skeleton of the csv runner's row loop: resolve each
row's id in order; an id error aborts the run at that row (mirroring the
uncaught `ValueError`); an id already in `done` is skipped; otherwise the
task executes and joins `done`.  Returns the ids executed before
completion or abort, and the abort message if any. -/
def csvProcessRows (series : String) :
    List (Option String) → Nat → List String → List String → List String × Option String
  | [], _, _, executed => (executed, none)
  | r :: rest, idx, done, executed =>
    match rowIdRes series idx r with
    | .error e => (executed, some e)
    | .ok tid =>
      if tid ∈ done then csvProcessRows series rest (idx + 1) done executed
      else csvProcessRows series rest (idx + 1) (done ++ [tid]) (executed ++ [tid])

/-! ## `agentflow.py`: `load_tasks_from_csv`

The loader resolves aliased columns and fills fallbacks; it performs no
id validation and no duplicate detection. -/

/-- One csv row, already projected onto the detected columns (a `none`
field means the column is absent). -/
structure CsvRow where
  rid : Option String
  rtitle : Option String
  rspec : Option String
  rengine : Option String
deriving DecidableEq

/-- One loaded task. -/
structure TaskM where
  task_id : String
  spec : String
  title : String
  engine : Option String
deriving DecidableEq

/-- The `json.dumps(row, ...)` fallback used when the spec column is
blank; the claims never inspect this text. -/
def dumpRow (r : CsvRow) : String :=
  "\x7b id: " ++ pyOrS r.rid "" ++ ", title: " ++ pyOrS r.rtitle ""
    ++ ", spec: " ++ pyOrS r.rspec "" ++ ", engine: " ++ pyOrS r.rengine "" ++ " \x7d"

/-- Model of `load_tasks_from_csv`: every row becomes a task; a blank id falls
back to `row{i+1}`, a blank spec to a serialization of the row. -/
def load_tasks_from_csv (rows : List CsvRow) : List TaskM :=
  rows.enum.map (fun p =>
    let i := p.1
    let row := p.2
    let rawId := pyOrS row.rid ""
    let task_id := if pyStrip rawId ≠ "" then pyStrip rawId else "row" ++ toString (i + 1)
    let title := pyStrip (pyOrS row.rtitle "")
    let spec0 := pyStrip (pyOrS row.rspec "")
    let spec := if spec0 ≠ "" then spec0 else dumpRow row
    let eng := pyStrip (pyOrS row.rengine "")
    ⟨task_id, spec, title, if eng ≠ "" then some eng else none⟩)

/-! ## Filesystem traces: state persistence
(`agentflow.save_state`, `agent_csv_runner.write_json`)

A filesystem maps paths to file contents.  `FOp` is the trace of
primitive operations a persistence routine performs; `crashContents`
enumerates every content the target path can hold if the process is
killed at any point, treating a `fwrite` as interruptible (the file may
be left holding any prefix of the new content, including the empty
truncation) and a rename as atomic. -/

/-- Primitive file operations. -/
inductive FOp where
  | fwrite : String → String → FOp
  | frename : String → String → FOp
deriving DecidableEq

/-- Point update of a path-to-content map. -/
def setF (fs : String → Option String) (p : String) (v : Option String) :
    String → Option String :=
  fun q => if q = p then v else fs q

/-- Effect of one completed operation. -/
def applyOp (fs : String → Option String) : FOp → (String → Option String)
  | .fwrite p c => setF fs p (some c)
  | .frename s d => setF (setF fs d (fs s)) s none

/-- Contents the target may hold if the process dies in the middle of
`op`: a write to the target leaves any prefix of the new content; a
write elsewhere or a rename leaves the target untouched (covered by the
surrounding states). -/
def midValues (op : FOp) (t : String) : List (Option String) :=
  match op with
  | .fwrite p c =>
    if p = t then (List.range (c.data.length + 1)).map (fun k => some (takeChars k c)) else []
  | .frename _ _ => []

/-- Every content the target path can be observed to hold at any kill
point while the trace runs (before, during and after each operation). -/
def crashContents (fs : String → Option String) (ops : List FOp) (t : String) :
    List (Option String) :=
  match ops with
  | [] => [fs t]
  | op :: rest => fs t :: (midValues op t ++ crashContents (applyOp fs op) rest t)

/-- The extension of a final path component: drop the text from the last
dot, unless the name has no dot or is a bare dotfile (`pathlib`
semantics). -/
def stripExtL (name : List Char) : List Char :=
  let parts := splitChar '.' name
  match parts with
  | [] => name
  | [_] => name
  | first :: rest =>
    if first.isEmpty ∧ rest.length = 1 then name
    else joinChar '.' parts.dropLast

/-- Model of `pathlib.Path.with_suffix`: replace the extension of the final
component with `suf`. -/
def withSuffix (p : String) (suf : String) : String :=
  let dirs := splitChar '/' p.data
  String.mk (joinChar '/' dirs.dropLast ++ stripExtL (dirs.getLastD []) ++ suf.data)

/-- Trace of `agentflow.save_state`: write the serialized document to the `.tmp`
sibling, then atomically replace the state file with it. -/
def save_state_ops (path : String) (content : String) : List FOp :=
  [.fwrite (withSuffix path ".tmp") content, .frename (withSuffix path ".tmp") path]

/-- Trace of `agent_csv_runner.write_json`: write the serialized document (plus a
trailing newline) directly to the target path. -/
def write_json_ops (path : String) (content : String) : List FOp :=
  [.fwrite path (content ++ "\n")]

/-! ## `agentflow.py`: state document, cursor, `load_state` -/

/-- The cursor: next task index, phase (`"main"` or `"after"`), and the
index of the next follow-up prompt. -/
structure CursorS where
  taskIndex : Nat
  phase : String
  afterIndex : Nat
deriving DecidableEq

/-- Python `int()` of a parsed JSON scalar (only the number case is ever
exercised by the state documents the script writes). -/
def pyInt : JVal → Int
  | .jnum n => n
  | .jbool b => if b then 1 else 0
  | _ => 0

/-- The fresh state document `{"cursor": asdict(Cursor()), "tasks": {}}`. -/
def default_state : JVal :=
  .jobj [("cursor", .jobj [("task_index", .jnum 0), ("phase", .jstr "main"),
                           ("after_index", .jnum 0)]),
         ("tasks", .jobj [])]

/-- Model of `load_state`: a missing file yields the fresh document; an existing
file that fails to parse is copied to a `.corrupt.<stamp>.json` sibling
and the fresh document is returned; a parsing file is returned verbatim.
The input is `none` (no file), `some none` (present, unparsable) or
`some (some v)` (present, parses to `v`); the second component is the
backup path written, if any. -/
def load_state (path stamp : String) : Option (Option JVal) → JVal × Option String
  | none => (default_state, none)
  | some none => (default_state, some (withSuffix path (".corrupt." ++ stamp ++ ".json")))
  | some (some v) => (v, none)

/-- Model of `get_cursor`: read the cursor fields out of the state document, with
the defaults `0` / `"main"` / `0`. -/
def get_cursor (state : JVal) : CursorS :=
  let c := jgetD state "cursor" (.jobj [])
  ⟨(pyInt (jgetD c "task_index" (.jnum 0))).toNat,
   pyStr (jgetD c "phase" (.jstr "main")),
   (pyInt (jgetD c "after_index" (.jnum 0))).toNat⟩

/-! ## Pause/stop waits
(`agentflow.ControlFiles.wait_if_paused`, `agent_csv_runner.wait_if_paused`)

`env n` gives the `(pause, stop)` marker existence observed at the n-th
poll.  Both loops are modelled with a poll budget (`fuel`); the value is
`some i` when the wait returns at poll `i`, `none` when the budget is
exhausted with the loop still running. -/

/-- Model of `agentflow.ControlFiles.wait_if_paused`: loop (sleeping) while the
pause marker exists; the stop marker is never consulted. -/
def afWaitAux (env : Nat → Bool × Bool) : Nat → Nat → Option Nat
  | 0, _ => none
  | fuel + 1, i => if (env i).1 then afWaitAux env fuel (i + 1) else some i

/-- Model of `agent_csv_runner.wait_if_paused`: loop while the pause marker
exists, but return as soon as the stop marker is seen. -/
def csvWaitAux (env : Nat → Bool × Bool) : Nat → Nat → Option Nat
  | 0, _ => none
  | fuel + 1, i =>
    if (env i).1 then
      if (env i).2 then some i else csvWaitAux env fuel (i + 1)
    else some i

/-- The environment in which both the pause and the stop markers are
present at every poll. -/
def bothMarkers : Nat → Bool × Bool := fun _ => (true, true)

/-! ## `agentflow.py`: the per-task state machine (`run_task`)

The oracle `exec engine phase i` is the observed outcome of
`run_with_engine` for the given engine on the given step (`i` is the
follow-up index, `0` for the MAIN step): whether the call succeeded, its
exit code, the session id it reported, and whether its output contained
`INVALID_ARGUMENT`.  Invalid engine names raise (`Except.error`), as
`run_with_engine` does.  `wait_if_paused` is modelled as returning (no
pause marker); the stop marker is a static flag checked at the same
checkpoints as in the source. -/

/-- Observed outcome of one backend invocation. -/
structure RRm where
  ok : Bool
  exitCode : Int
  sessionId : Option String
  invalidArg : Bool
deriving DecidableEq

/-- One appended history record. -/
structure HRec where
  phase : String
  afterIndex : Option Nat
  engine : String
  ok : Bool
  exitCode : Int
deriving DecidableEq

/-- The per-task state dictionary (`tstate`). -/
structure TState where
  history : List HRec
  claudeSession : Option String
  codexCanResume : Bool
  geminiResume : Option String
  lastOkEngine : Option String
  status : Option String
deriving DecidableEq

/-- The empty per-task state created by `ensure_task_state`. -/
def tsEmpty : TState := ⟨[], none, false, none, none, none⟩

/-- The engine names `run_with_engine` accepts. -/
def validEngine (e : String) : Bool :=
  e = "codex" || e = "claude" || e = "gemini"

/-- Model of `normalize_engine`: alias resolution; unknown names raise. -/
def normalize_engine (name : String) : Except String String :=
  let n := pyLower (pyStrip name)
  if n = "codex" ∨ n = "openai" ∨ n = "oai" then .ok "codex"
  else if n = "claude" ∨ n = "claude-code" ∨ n = "anthropic" then .ok "claude"
  else if n = "gemini" ∨ n = "google" then .ok "gemini"
  else .error name

/-- The MAIN-phase engine order: the task's (normalized) override if
present, else the primary; then the fallbacks not already in that
one-element list (the membership filter of the comprehension is
evaluated against the pre-extension list, as in the source). -/
def engineOrder (rowEngine : Option String) (primary : String) (fallbacks : List String) :
    List String :=
  let base := [rowEngine.getD primary]
  base ++ fallbacks.filter (fun e => !base.contains e)

/-- The AFTER-phase engine order:
`[last_ok or primary, primary] + [e for e in fallbacks if e not in {last_ok, primary}]`. -/
def afterOrder (lastOk : Option String) (primary : String) (fallbacks : List String) :
    List String :=
  let lo := pyOrS lastOk primary
  [lo, primary] ++ fallbacks.filter (fun e => !(e == lo) && !(e == primary))

/-- The session id a result carries, under Python truthiness. -/
def sidOf (r : RRm) : Option String :=
  match r.sessionId with
  | some s => if s ≠ "" then some s else none
  | none => none

/-- Append one history record (the `tstate["history"].append(...)` call). -/
def recordStep (ts : TState) (phase : String) (aIdx : Option Nat) (e : String) (r : RRm) :
    TState :=
  { ts with history := ts.history ++ [⟨phase, aIdx, e, r.ok, r.exitCode⟩] }

/-- The session bookkeeping after each attempt: a truthy claude session
id is stored; a codex run enables resume; a failed gemini run whose
output contains `INVALID_ARGUMENT` clears the stored gemini resume. -/
def updateSessions (ts : TState) (e : String) (r : RRm) : TState :=
  let t1 :=
    match sidOf r with
    | some s => if e = "claude" then { ts with claudeSession := some s } else ts
    | none => ts
  let t2 := if e = "codex" then { t1 with codexCanResume := true } else t1
  if e = "gemini" ∧ r.ok = false ∧ r.invalidArg then { t2 with geminiResume := none } else t2

/-- The attempt loop shared by both phases: try the engines in order,
recording every attempt; stop at the first success, remembering it as
`last_ok_engine`.  Returns the successful engine, or `none` when every
engine failed; an unsupported engine name raises. -/
def attemptLoop (exec : String → String → Nat → RRm) (phase : String) (aIdx : Option Nat) :
    List String → TState → Except String (TState × Option String)
  | [], ts => .ok (ts, none)
  | e :: rest, ts =>
    if validEngine e then
      let r := exec e phase (aIdx.getD 0)
      let ts1 := updateSessions (recordStep ts phase aIdx e r) e r
      if r.ok then .ok ({ ts1 with lastOkEngine := some e }, some e)
      else attemptLoop exec phase aIdx rest ts1
    else .error e

/-- The AFTER while-loop: one iteration per remaining follow-up prompt
(`fuel` many, the current index being `i`); each iteration checks the
stop marker, recomputes the engine order from `last_ok_engine`, runs the
attempt loop, and records `after_failed` / `after_ok_{i+1}`.  Returns
the final task state, the final follow-up index, and whether the loop
returned early due to stop. -/
def afterLoop (exec : String → String → Nat → RRm) (primary : String)
    (fallbacks : List String) (stop : Bool) :
    Nat → TState → Nat → Except String (TState × Nat × Bool)
  | 0, ts, i => .ok (ts, i, false)
  | fuel + 1, ts, i =>
    if stop then .ok (ts, i, true)
    else
      match attemptLoop exec "after" (some i) (afterOrder ts.lastOkEngine primary fallbacks) ts with
      | .error e => .error e
      | .ok (ts1, succ) =>
        let ts2 :=
          match succ with
          | none => { ts1 with status := some "after_failed" }
          | some _ => { ts1 with status := some ("after_ok_" ++ toString (i + 1)) }
        afterLoop exec primary fallbacks stop fuel ts2 (i + 1)

/-- Result of `run_task`: the updated task state and the cursor it
returns. -/
structure RunTaskOut where
  tstate : TState
  cursor : CursorS
deriving DecidableEq

/-- The AFTER phase plus the `done` epilogue of `run_task`: run the
while-loop when the cursor is in the after phase; unless the loop
returned early on stop, mark the task `done` and advance the cursor to
the next task's MAIN state. -/
def afterPart (exec : String → String → Nat → RRm) (primary : String)
    (fallbacks : List String) (afterCount : Nat) (stop : Bool)
    (ts : TState) (c : CursorS) : Except String RunTaskOut :=
  if c.phase = "after" then
    match afterLoop exec primary fallbacks stop (afterCount - c.afterIndex) ts c.afterIndex with
    | .error e => .error e
    | .ok (ts1, i, stoppedEarly) =>
      if stoppedEarly then .ok ⟨ts1, ⟨c.taskIndex, "after", i⟩⟩
      else .ok ⟨{ ts1 with status := some "done" }, ⟨c.taskIndex + 1, "main", 0⟩⟩
  else .ok ⟨{ ts with status := some "done" }, ⟨c.taskIndex + 1, "main", 0⟩⟩

/-- The per-row engine override after normalization (`none` when the row
has no override; unknown names raise). -/
def rowEngineRes (taskEngine : Option String) : Except String (Option String) :=
  match taskEngine with
  | none => .ok none
  | some s => (normalize_engine s).map some

/-- Model of `run_task`: in the MAIN phase, try the engine order; if every engine
fails, mark the task `failed` and return with the cursor advanced to the
next task's MAIN state (the AFTER loop is never reached); on success,
mark `main_ok`, move the cursor to the AFTER phase and continue with the
follow-up prompts.  `taskEngine` is the raw per-row override, normalized
(and raising on unknown names) as in the source. -/
def run_task (exec : String → String → Nat → RRm) (taskEngine : Option String)
    (primary : String) (fallbacks : List String) (afterCount : Nat) (stop : Bool)
    (ts0 : TState) (c0 : CursorS) : Except String RunTaskOut :=
  match rowEngineRes taskEngine with
  | .error e => .error e
  | .ok rowEngine =>
    if c0.phase = "main" then
      if stop then .ok ⟨ts0, c0⟩
      else
        match attemptLoop exec "main" none (engineOrder rowEngine primary fallbacks) ts0 with
        | .error e => .error e
        | .ok (ts1, none) =>
          .ok ⟨{ ts1 with status := some "failed" }, ⟨c0.taskIndex + 1, "main", 0⟩⟩
        | .ok (ts1, some _) =>
          afterPart exec primary fallbacks afterCount stop
            { ts1 with status := some "main_ok" } ⟨c0.taskIndex, "after", 0⟩
    else afterPart exec primary fallbacks afterCount stop ts0 c0

/-! ## `agent_csv_runner.py`: implement-step exhaustion in `main`

`agent_try_order` builds the primary-then-fallbacks attempt order;
`main` runs the implement step through it and, when no agent succeeds,
executes `return 1`, aborting the whole run. -/

/-- Model of `agent_try_order`: primary first, then each fallback not equal to
the primary and not already appended. -/
def agent_try_order (primary : String) (fallbacks : List String) : List String :=
  fallbacks.foldl (fun out a => if a ≠ primary ∧ a ∉ out then out ++ [a] else out) [primary]

/-- The implement-step attempt loop of `main`: first agent with exit
code 0, if any. -/
def csvImplLoop (execRc : String → Int) : List String → Option String
  | [] => none
  | a :: rest => if execRc a = 0 then some a else csvImplLoop execRc rest

/-- The task sequencing of the csv runner's `main`, restricted to the
implement step: process the tasks in order; a task whose implement step
fails with every agent makes `main` return exit code 1 on the spot.
`execRc t a` is agent `a`'s exit code on task `t`.  Returns the number
of tasks completed and the early exit code, if any. -/
def csvRunTasks (execRc : Nat → String → Int) (primary : String) (fallbacks : List String) :
    List Nat → Nat × Option Int
  | [] => (0, none)
  | t :: rest =>
    match csvImplLoop (execRc t) (agent_try_order primary fallbacks) with
    | none => (0, some 1)
    | some _ =>
      let out := csvRunTasks execRc primary fallbacks rest
      (out.1 + 1, out.2)

/-- The engines recorded by an attempt loop run, in attempt order. -/
def attemptEngines (x : Except String (TState × Option String)) : List String :=
  match x with
  | .ok p => p.1.history.map HRec.engine
  | .error _ => []

/-- The claim-relevant predicate on `last_ok_engine`: whenever it holds a
non-empty name, that name is a supported engine. -/
def validLO (o : Option String) : Prop :=
  ∀ s, o = some s → s ≠ "" → validEngine s = true

/-!
# Theorems

Helper lemmas first, then one theorem (plus witness or counterexample)
per claim of the specification audit.
-/

/-! ## Generic list/string lemmas -/

theorem mem_dropWhile_of_mem {p : Char → Bool} {l : List Char} {x : Char}
    (hx : x ∈ l) (hpx : p x = false) : x ∈ l.dropWhile p := by
  induction l with
  | nil => cases hx
  | cons a l ih =>
    rcases List.mem_cons.mp hx with rfl | hmem
    · rw [List.dropWhile_cons, hpx]
      exact List.mem_cons_self _ _
    · rw [List.dropWhile_cons]
      cases hpa : p a with
      | true => simpa using ih hmem
      | false => exact List.mem_cons_of_mem _ hmem

theorem stripWithL_ne_nil {p : Char → Bool} {l : List Char} {x : Char}
    (hx : x ∈ l) (hpx : p x = false) : stripWithL p l ≠ [] := by
  unfold stripWithL
  intro hc
  have h1 : x ∈ l.dropWhile p := mem_dropWhile_of_mem hx hpx
  have h2 : x ∈ (l.dropWhile p).reverse := List.mem_reverse.mpr h1
  have h3 : x ∈ ((l.dropWhile p).reverse.dropWhile p) := mem_dropWhile_of_mem h2 hpx
  rw [List.reverse_eq_nil_iff.mp hc] at h3
  cases h3

theorem pyStrip_ne_empty {s : String} {x : Char}
    (hx : x ∈ s.data) (hpx : isPySpace x = false) : pyStrip s ≠ "" := by
  unfold pyStrip pyStripWith
  intro hc
  have hd : stripWithL isPySpace s.data = [] := by
    have := congrArg String.data hc
    simpa using this
  exact stripWithL_ne_nil hx hpx hd

/-! ## C1 helper lemmas -/

theorem handle_line_errors_ne (st : GStream) (l : GLine) (h : st.errors ≠ []) :
    (handle_line st l).errors ≠ [] := by
  cases l with
  | none => simpa [handle_line] using h
  | some fs =>
    rcases hty : jget (JVal.jobj fs) "type" with _ | v
    · simpa [handle_line, hty] using h
    · cases v with
      | jstr t =>
        simp only [handle_line, hty]
        repeat' split
        all_goals simp_all
      | jnull => simpa [handle_line, hty] using h
      | jbool b => simpa [handle_line, hty] using h
      | jnum n => simpa [handle_line, hty] using h
      | jarr a => simpa [handle_line, hty] using h
      | jobj o => simpa [handle_line, hty] using h

theorem foldl_handle_line_errors_ne (ls : List GLine) :
    ∀ st : GStream, st.errors ≠ [] → (ls.foldl handle_line st).errors ≠ [] := by
  induction ls with
  | nil => exact fun _ h => h
  | cons l ls ih => exact fun st h => ih _ (handle_line_errors_ne st l h)

theorem handle_line_error_evt (st : GStream) (fs : List (String × JVal))
    (h : jget (JVal.jobj fs) "type" = some (JVal.jstr "error")) :
    (handle_line st (some fs)).errors ≠ [] := by
  simp [handle_line, h]

theorem isErrorLine_eq_true {l : GLine} (h : isErrorLine l = true) :
    ∃ fs, l = some fs ∧ jget (JVal.jobj fs) "type" = some (JVal.jstr "error") := by
  cases l with
  | none => simp [isErrorLine] at h
  | some fs =>
    refine ⟨fs, rfl, ?_⟩
    simp only [isErrorLine] at h
    rcases hj : jget (JVal.jobj fs) "type" with _ | v
    · rw [hj] at h; simp at h
    · rw [hj] at h
      cases v with
      | jstr t =>
        have ht : t = "error" := by simpa using h
        rw [ht]
      | jnull => simp at h
      | jbool b => simp at h
      | jnum n => simp at h
      | jarr a => simp at h
      | jobj o => simp at h

theorem any_error_fold_ne (ls : List GLine) :
    ∀ st : GStream, ls.any isErrorLine = true → (ls.foldl handle_line st).errors ≠ [] := by
  induction ls with
  | nil => intro st h; simp at h
  | cons l ls ih =>
    intro st h
    rw [List.any_cons] at h
    rw [List.foldl_cons]
    rcases Bool.or_eq_true_iff.mp h with h1 | h2
    · obtain ⟨fs, rfl, hty⟩ := isErrorLine_eq_true h1
      exact foldl_handle_line_errors_ne ls _ (handle_line_error_evt st fs hty)
    · exact ih _ h2

/-! ## Claim C1 -/

/-- C1: in the streamed (gemini, `stream-json`) backend, any `error`
event, or a terminal `result` status that is non-empty and differs from
`"success"`, makes the effective return code 1 even when the process
itself exits with code 0; and an `init` event with a non-empty session
id is captured as the resume token (`sessions.gemini_session_id`). -/
theorem c1_streamed_gemini_failure_and_session
    (lines : List GLine) (prior : Option String) :
    (lines.any isErrorLine = true →
      geminiStreamEffectiveRc 0 (gFold prior lines) = 1)
    ∧ (∀ s, (gFold prior lines).resultStatus = some s → s ≠ "" → s ≠ "success" →
      geminiStreamEffectiveRc 0 (gFold prior lines) = 1)
    ∧ (∀ st sid, sid ≠ "" →
      (handle_line st (some [("type", .jstr "init"), ("session_id", .jstr sid)])).sessionId
        = some sid) := by
  refine ⟨?_, ?_, ?_⟩
  · intro h
    have herr : (gFold prior lines).errors ≠ [] := any_error_fold_ne lines (gInit prior) h
    unfold geminiStreamEffectiveRc
    cases hsf : statusFails (gFold prior lines).resultStatus with
    | true => simp [hsf]
    | false => simp [hsf, List.isEmpty_eq_false_iff_exists_mem.mpr
        (List.exists_mem_of_ne_nil _ herr)]
  · intro s hs hne hnsucc
    unfold geminiStreamEffectiveRc
    have hsf : statusFails (gFold prior lines).resultStatus = true := by
      rw [hs]
      unfold statusFails
      simp [hne, hnsucc]
    simp [hsf]
  · intro st sid hsid
    simp [handle_line, jget, lookupStr, truthy, pyStr, hsid]

/-- A concrete streamed session: an `init` event carrying a session id,
followed by an `error` event. -/
def c1Lines : List GLine :=
  [some [("type", JVal.jstr "init"), ("session_id", JVal.jstr "s1")],
   some [("type", JVal.jstr "error"), ("message", JVal.jstr "boom")]]

theorem c1_streamed_gemini_failure_and_session_witness :
    geminiStreamEffectiveRc 0 (gFold none c1Lines) = 1
    ∧ (handle_line (gInit none)
        (some [("type", JVal.jstr "init"), ("session_id", JVal.jstr "s1")])).sessionId
      = some "s1" :=
  ⟨(c1_streamed_gemini_failure_and_session c1Lines none).1 (by decide),
   (c1_streamed_gemini_failure_and_session c1Lines none).2.2 (gInit none) "s1" (by decide)⟩

/-! ## C6 helper lemma -/

theorem csv_gemini_json_summary_ne_empty (obj ev : JVal)
    (h : jget obj "error" = some ev) (ht : truthy ev = true) :
    csv_gemini_json_summary true (some obj) ≠ "" := by
  have hbase :
      (match jget obj "error" with
       | some e =>
         if truthy e then
           match e with
           | JVal.jobj _ =>
             pyStrip (pyStr (jgetD e "type" (.jstr "Error")) ++ ": "
                       ++ pyStr (jgetD e "message" (.jstr "")))
           | _ => "JSON parse error: AttributeError"
         else ""
       | none => "") ≠ "" := by
    rw [h]
    dsimp only
    rw [if_pos ht]
    cases ev with
    | jobj fields =>
      apply pyStrip_ne_empty (x := ':')
      · have hdata : (pyStr (jgetD (JVal.jobj fields) "type" (.jstr "Error")) ++ ": "
            ++ pyStr (jgetD (JVal.jobj fields) "message" (.jstr ""))).data
            = (pyStr (jgetD (JVal.jobj fields) "type" (.jstr "Error"))).data
              ++ (": ".data ++ (pyStr (jgetD (JVal.jobj fields) "message" (.jstr ""))).data) := by
          simp [String.data_append]
        rw [hdata]
        refine List.mem_append.mpr (Or.inr (List.mem_append.mpr (Or.inl ?_)))
        decide
      · decide
    | jnull => exact absurd ht (by decide)
    | jbool b => dsimp only; decide
    | jnum n => dsimp only; decide
    | jstr s => dsimp only; decide
    | jarr a => dsimp only; decide
  simp only [csv_gemini_json_summary, if_true]
  rcases hr : jget obj "response" with _ | v
  · exact hbase
  · dsimp only
    cases htv : truthy v with
    | false =>
      rw [if_neg (show ¬(false = true) by decide)]
      exact hbase
    | true =>
      rw [if_pos (show true = true from rfl)]
      cases v with
      | jstr s => exact hbase
      | jnull => dsimp only; decide
      | jbool b => dsimp only; decide
      | jnum n => dsimp only; decide
      | jarr a => dsimp only; decide
      | jobj o => dsimp only; decide

/-! ## Claim C6 -/

/-- C6: each structured-payload backend treats a reported error as a
failure even at process exit code 0: `Engine.run_claude` when the
payload has `is_error is True` or `subtype == "error"`;
`Engine.run_gemini` when it has a truthy `error` field; and the csv
runner's gemini JSON branch, whose effective return code is forced to 1
by the non-empty error summary. -/
theorem c6_structured_error_forces_failure
    (fsC fsG : List (String × JVal)) (objJ : JVal) :
    ((jget (JVal.jobj fsC) "is_error" = some (.jbool true)
        ∨ jget (JVal.jobj fsC) "subtype" = some (.jstr "error")) →
      run_claude_ok 0 (some (.jobj fsC)) = false)
    ∧ (∀ e, jget (JVal.jobj fsG) "error" = some e → truthy e = true →
      run_gemini_ok 0 (some (.jobj fsG)) = false)
    ∧ (∀ ev, jget objJ "error" = some ev → truthy ev = true →
      csv_gemini_json_rc 0 true (some objJ) = 1) := by
  refine ⟨?_, ?_, ?_⟩
  · intro h
    rcases h with h | h <;> simp [run_claude_ok, h]
  · intro e he ht
    simp [run_gemini_ok, he, ht]
  · intro ev he ht
    have hne := csv_gemini_json_summary_ne_empty objJ ev he ht
    simp [csv_gemini_json_rc, hne]

theorem c6_structured_error_forces_failure_witness :
    run_claude_ok 0 (some (.jobj [("is_error", .jbool true)])) = false
    ∧ run_gemini_ok 0 (some (.jobj [("error", .jstr "boom")])) = false
    ∧ csv_gemini_json_rc 0 true
        (some (.jobj [("error", .jobj [("type", .jstr "FatalError"),
                                        ("message", .jstr "bad")])])) = 1 :=
  ⟨(c6_structured_error_forces_failure [("is_error", .jbool true)] [] .jnull).1
      (Or.inl rfl),
   (c6_structured_error_forces_failure [] [("error", .jstr "boom")] .jnull).2.1
      (.jstr "boom") rfl rfl,
   (c6_structured_error_forces_failure [] []
      (.jobj [("error", .jobj [("type", .jstr "FatalError"), ("message", .jstr "bad")])])).2.2
      (.jobj [("type", .jstr "FatalError"), ("message", .jstr "bad")]) rfl rfl⟩

/-! ## C7 helper lemma -/

theorem run_verifyAux_spec (cmds : String → Option String)
    (exec : String → Int × String × String) :
    ∀ keys : List String,
      (run_verifyAux cmds exec keys).1
          = (keys.map (fun k => pyStrip (pyOrS (cmds k) ""))).filter (fun c => !(c == ""))
      ∧ (run_verifyAux cmds exec keys).2
          = (run_verifyAux cmds exec keys).1.filterMap (fun c =>
              if (exec c).1 ≠ 0 then
                some (c, pyStrip ((exec c).2.1 ++ "\n" ++ (exec c).2.2))
              else none) := by
  intro keys
  induction keys with
  | nil => exact ⟨rfl, rfl⟩
  | cons key rest ih =>
    obtain ⟨ih1, ih2⟩ := ih
    by_cases hc : pyStrip (pyOrS (cmds key) "") = ""
    · have e1 : run_verifyAux cmds exec (key :: rest) = run_verifyAux cmds exec rest := by
        simp only [run_verifyAux]
        rw [if_pos hc]
      constructor
      · rw [e1, ih1, List.map_cons, List.filter_cons, hc]
        simp
      · rw [e1]
        exact ih2
    · by_cases hrc : (exec (pyStrip (pyOrS (cmds key) ""))).1 ≠ 0
      · have e1 : run_verifyAux cmds exec (key :: rest)
            = (pyStrip (pyOrS (cmds key) "") :: (run_verifyAux cmds exec rest).1,
               (pyStrip (pyOrS (cmds key) ""),
                pyStrip ((exec (pyStrip (pyOrS (cmds key) ""))).2.1 ++ "\n"
                  ++ (exec (pyStrip (pyOrS (cmds key) ""))).2.2))
                 :: (run_verifyAux cmds exec rest).2) := by
          simp only [run_verifyAux]
          rw [if_neg hc, if_pos hrc]
        constructor
        · rw [e1, List.map_cons, List.filter_cons]
          simp only [hc, ih1]
          rw [if_pos (show (!pyStrip (pyOrS (cmds key) "") == "") = true by simp [hc])]
        · rw [e1]
          dsimp only
          rw [ih2, List.filterMap_cons, if_pos hrc]
      · have e1 : run_verifyAux cmds exec (key :: rest)
            = (pyStrip (pyOrS (cmds key) "") :: (run_verifyAux cmds exec rest).1,
               (run_verifyAux cmds exec rest).2) := by
          simp only [run_verifyAux]
          rw [if_neg hc, if_neg hrc]
        constructor
        · rw [e1, List.map_cons, List.filter_cons]
          simp only [hc, ih1]
          rw [if_pos (show (!pyStrip (pyOrS (cmds key) "") == "") = true by simp [hc])]
        · rw [e1]
          dsimp only
          rw [ih2, List.filterMap_cons, if_neg hrc]

/-! ## Claim C7 -/

/-- C7: `run_verify` executes exactly the checks whose configured
command is non-blank after stripping, in the fixed `format`/`lint`/`test`
order and independently of earlier outcomes, and returns precisely the
executed commands that exited non-zero, each paired with its stripped
combined stdout/stderr output. -/
theorem c7_run_verify_collects_all (cmds : String → Option String)
    (exec : String → Int × String × String) :
    verify_executed cmds exec
        = (verify_keys.map (fun k => pyStrip (pyOrS (cmds k) ""))).filter (fun c => !(c == ""))
    ∧ run_verify cmds exec
        = (verify_executed cmds exec).filterMap (fun c =>
            if (exec c).1 ≠ 0 then
              some (c, pyStrip ((exec c).2.1 ++ "\n" ++ (exec c).2.2))
            else none) :=
  run_verifyAux_spec cmds exec verify_keys

/-! ## Claim C10 -/

/-- C10: when the state file exists but does not parse, `load_state`
copies it to a timestamped `.corrupt.<stamp>.json` backup and returns
the fresh default document, whose cursor is task 0 / phase `"main"` /
after-index 0 and whose tasks map is empty — so a resume after
corruption restarts from the first task. -/
theorem c10_corrupt_state_backup_and_default :
    load_state "state.json" "20240102-030405" (some none)
        = (default_state, some "state.corrupt.20240102-030405.json")
    ∧ get_cursor default_state = ⟨0, "main", 0⟩
    ∧ jget default_state "tasks" = some (.jobj []) := by
  refine ⟨?_, rfl, rfl⟩
  have hsfx : withSuffix "state.json" ".corrupt.20240102-030405.json"
      = "state.corrupt.20240102-030405.json" := by decide
  simp [load_state, hsfx]

/-! ## Claim C4 (corrected) -/

/-- C4 counterexample: with both the pause and the stop markers present
at every poll, `agentflow.ControlFiles.wait_if_paused` is still looping
after any number of polls (here 5), while the csv runner's
`wait_if_paused` returns at the very first poll.  The claim that "for
every state with both pause and stop markers present, the pause wait
returns" is false for the agentflow implementation. -/
theorem c4_counterexample :
    afWaitAux bothMarkers 5 0 = none ∧ csvWaitAux bothMarkers 5 0 = some 0 := by
  decide

/-- C4 (amended): the csv runner's `wait_if_paused` returns as soon as
the pause marker is gone or the stop marker appears — in particular it
returns immediately when both markers are present; the agentflow
`ControlFiles.wait_if_paused` polls only the pause marker and never
returns while pause persists, no matter how long the stop marker has
been present. -/
theorem c4_pause_wait_amended (env : Nat → Bool × Bool) (fuel i : Nat) :
    ((∀ j, (env j).1 = true) → afWaitAux env fuel i = none)
    ∧ ((env i).1 = true → (env i).2 = true → csvWaitAux env (fuel + 1) i = some i) := by
  constructor
  · intro h
    induction fuel generalizing i with
    | zero => rfl
    | succ n ih =>
      rw [afWaitAux, if_pos (h i)]
      exact ih (i + 1)
  · intro hp hs
    rw [csvWaitAux, if_pos hp, if_pos hs]

theorem c4_pause_wait_amended_witness :
    afWaitAux bothMarkers 4 0 = none ∧ csvWaitAux bothMarkers 8 0 = some 0 :=
  ⟨(c4_pause_wait_amended bothMarkers 4 0).1 (fun _ => rfl),
   (c4_pause_wait_amended bothMarkers 7 0).2 rfl rfl⟩

/-! ## Claim C3 (corrected) -/

/-- C3 counterexample: `agent_csv_runner.write_json` — the csv runner's
only persistence routine for its state document — writes the target
file in place, so a kill mid-write can leave the state file holding a
strict prefix (`"NEW"`) of the new document, which is neither the old
content nor the new one.  The claim that every persistence of the state
document is write-temp-then-rename is therefore false. -/
theorem c3_counterexample :
    some "NEW" ∈ crashContents (fun _ => some "OLD")
        (write_json_ops "state.json" "NEWDOC") "state.json"
    ∧ (some "NEW" : Option String) ≠ some "OLD"
    ∧ (some "NEW" : Option String) ≠ some ("NEWDOC" ++ "\n") := by
  decide

/-- C3 (amended): `agentflow.save_state` does persist atomically — it
writes the full document to the `.tmp` sibling and renames it over the
state file, so at every kill point the state file holds either the old
content or the complete new document, never a partial write;
`agent_csv_runner.write_json` lacks this property (see the
counterexample). -/
theorem c3_save_state_atomic (fs : String → Option String) (path content : String)
    (h : withSuffix path ".tmp" ≠ path) :
    crashContents fs (save_state_ops path content) path
      = [fs path, fs path, some content] := by
  have h2 : path ≠ withSuffix path ".tmp" := Ne.symm h
  simp [save_state_ops, crashContents, midValues, applyOp, setF, h, h2]

theorem c3_save_state_atomic_witness :
    crashContents (fun _ => none) (save_state_ops "state.json" "NEWDOC") "state.json"
      = [none, none, some "NEWDOC"] :=
  c3_save_state_atomic (fun _ => none) "state.json" "NEWDOC" (by decide)

/-! ## Claim C8 (corrected) -/

/-- C8 counterexample: (i) in the csv runner a malformed id in row 2
aborts the run only when that row is reached — after the task of row 1
has already executed (`executed = ["T1-1"]`), not "before any task is
executed"; (ii) a duplicate id is not an error at all: the run completes
(`none`), the second occurrence being silently skipped; (iii) the
agentflow loader accepts a malformed id (`"###"`, rejected by the csv
runner's `TASK_ID_RE`) without any error. -/
theorem c8_counterexample :
    csvProcessRows "T2" [some "T1-1", some "not an id"] 1 [] []
        = (["T1-1"], some "Bad task id: not an id")
    ∧ csvProcessRows "T2" [some "T1-1", some "T1-1"] 1 [] [] = (["T1-1"], none)
    ∧ (load_tasks_from_csv [⟨some "###", none, some "spec text", none⟩]).map TaskM.task_id
        = ["###"]
    ∧ taskIdMatches "###" = false := by
  decide

/-- C8 (amended): the csv runner validates each task id with
`sanitize_task_id` only when its row is reached: a run whose rows all
carry valid (or valid positional) ids never aborts on ids — duplicates
included, so duplicate ids are not a fatal error; a row whose id fails
to sanitize aborts the run at that row, keeping the tasks already
executed; the agentflow loader performs no id validation at all (every
row yields a task). -/
theorem c8_task_id_validation_amended (series : String) (idx : Nat)
    (rs : List (Option String)) (done executed : List String) (rows : List CsvRow) :
    (rowsAllOk series idx rs = true →
      (csvProcessRows series rs idx done executed).2 = none)
    ∧ (∀ r rest e, rowIdRes series idx r = .error e →
      csvProcessRows series (r :: rest) idx done executed = (executed, some e))
    ∧ (load_tasks_from_csv rows).length = rows.length := by
  refine ⟨?_, ?_, ?_⟩
  · induction rs generalizing idx done executed with
    | nil => intro _; rfl
    | cons r rest ih =>
      intro h
      rw [rowsAllOk, Bool.and_eq_true] at h
      obtain ⟨h1, h2⟩ := h
      rw [rowIdOk] at h1
      rcases heq : rowIdRes series idx r with e | tid
      · rw [heq] at h1; simp at h1
      · rw [csvProcessRows, heq]
        dsimp only
        split
        · exact ih (idx + 1) done executed h2
        · exact ih (idx + 1) (done ++ [tid]) (executed ++ [tid]) h2
  · intro r rest e h
    rw [csvProcessRows, h]
  · simp [load_tasks_from_csv]

theorem c8_task_id_validation_amended_witness :
    (csvProcessRows "T2" [some " T1-2 ", none] 1 [] []).2 = none
    ∧ csvProcessRows "T2" [some "bad"] 3 ["T1-1"] ["T1-1"] = (["T1-1"], some "Bad task id: bad")
    ∧ (load_tasks_from_csv [⟨none, none, none, none⟩]).length = 1 :=
  ⟨(c8_task_id_validation_amended "T2" 1 [some " T1-2 ", none] [] [] []).1 (by decide),
   (c8_task_id_validation_amended "T2" 3 [] ["T1-1"] ["T1-1"] []).2.1
      (some "bad") [] "Bad task id: bad" rfl,
   (c8_task_id_validation_amended "T2" 0 [] [] [] [⟨none, none, none, none⟩]).2.2⟩

/-! ## Attempt-loop lemmas (shared by C2 and C5) -/

theorem updateSessions_fields (ts : TState) (e : String) (r : RRm) :
    (updateSessions ts e r).history = ts.history
    ∧ (updateSessions ts e r).status = ts.status
    ∧ (updateSessions ts e r).lastOkEngine = ts.lastOkEngine := by
  unfold updateSessions
  dsimp only
  repeat' split
  all_goals exact ⟨rfl, rfl, rfl⟩

theorem attemptLoop_all_fail (exec : String → String → Nat → RRm) (phase : String)
    (aIdx : Option Nat) :
    ∀ (order : List String) (ts : TState),
      (∀ e ∈ order, validEngine e = true) →
      (∀ e ∈ order, (exec e phase (aIdx.getD 0)).ok = false) →
      ∃ ts1, attemptLoop exec phase aIdx order ts = .ok (ts1, none)
        ∧ ts1.history = ts.history ++ order.map (fun e =>
            ⟨phase, aIdx, e, false, (exec e phase (aIdx.getD 0)).exitCode⟩)
        ∧ ts1.status = ts.status := by
  intro order
  induction order with
  | nil => exact fun ts _ _ => ⟨ts, rfl, by simp, rfl⟩
  | cons e rest ih =>
    intro ts hv hf
    have hve : validEngine e = true := hv e (List.mem_cons_self _ _)
    have hfe : (exec e phase (aIdx.getD 0)).ok = false := hf e (List.mem_cons_self _ _)
    rw [attemptLoop, if_pos hve]
    dsimp only
    rw [if_neg (by simp [hfe])]
    obtain ⟨ts1, h1, h2, h3⟩ :=
      ih (updateSessions (recordStep ts phase aIdx e (exec e phase (aIdx.getD 0)))
            e (exec e phase (aIdx.getD 0)))
        (fun x hx => hv x (List.mem_cons_of_mem _ hx))
        (fun x hx => hf x (List.mem_cons_of_mem _ hx))
    refine ⟨ts1, h1, ?_, ?_⟩
    · rw [h2, (updateSessions_fields _ _ _).1]
      show ts.history ++ [⟨phase, aIdx, e, (exec e phase (aIdx.getD 0)).ok,
          (exec e phase (aIdx.getD 0)).exitCode⟩] ++ _ = _
      rw [hfe, List.map_cons, List.append_assoc]
      rfl
    · rw [h3, (updateSessions_fields _ _ _).2.1]
      rfl

/-! ## Claim C2 (corrected) -/

/-- C2 counterexample: in `agent_csv_runner.main`, when every agent
fails the implement step of the first task, `main` returns exit code 1
on the spot: zero tasks complete and the second task never runs — the
run aborts instead of continuing with the next task. -/
theorem c2_counterexample :
    csvRunTasks (fun _ _ => 1) "codex" ["claude"] [0, 1] = (0, some 1) := by
  decide

/-- C2 (amended): in `agentflow.run_task`, when every engine in the
MAIN order fails, the task is marked `failed`, exactly one MAIN record
per attempted engine is appended (no AFTER records), and the function
returns normally with the cursor advanced to the next task's MAIN state
with after-index 0, so agentflow's run continues with the next task; in
`agent_csv_runner.main`, by contrast, implement-step exhaustion makes
the whole run abort with exit code 1. -/
theorem c2_main_exhaustion_amended
    (exec : String → String → Nat → RRm) (taskEngine : Option String) (ro : Option String)
    (primary : String) (fallbacks : List String) (afterCount : Nat)
    (ts0 : TState) (ti : Nat)
    (execRc : Nat → String → Int) (p2 : String) (fb2 : List String) (t : Nat)
    (rest : List Nat)
    (hrow : rowEngineRes taskEngine = .ok ro)
    (hvalid : ∀ e ∈ engineOrder ro primary fallbacks, validEngine e = true)
    (hfail : ∀ e ∈ engineOrder ro primary fallbacks, (exec e "main" 0).ok = false)
    (hfail2 : ∀ a, execRc t a ≠ 0) :
    (∃ ts1, run_task exec taskEngine primary fallbacks afterCount false ts0 ⟨ti, "main", 0⟩
        = .ok ⟨ts1, ⟨ti + 1, "main", 0⟩⟩
      ∧ ts1.status = some "failed"
      ∧ ts1.history = ts0.history ++ (engineOrder ro primary fallbacks).map (fun e =>
          ⟨"main", none, e, false, (exec e "main" 0).exitCode⟩))
    ∧ csvRunTasks execRc p2 fb2 (t :: rest) = (0, some 1) := by
  constructor
  · obtain ⟨ts1, h1, h2, h3⟩ :=
      attemptLoop_all_fail exec "main" none (engineOrder ro primary fallbacks) ts0
        hvalid hfail
    refine ⟨{ ts1 with status := some "failed" }, ?_, rfl, by simpa using h2⟩
    rw [run_task, hrow]
    dsimp only
    rw [if_pos rfl, if_neg (by decide), h1]
  · have hloop : ∀ order, csvImplLoop (execRc t) order = none := by
      intro order
      induction order with
      | nil => rfl
      | cons a rest2 ih => rw [csvImplLoop, if_neg (hfail2 a), ih]
    rw [csvRunTasks, hloop]

theorem c2_main_exhaustion_amended_witness :
    (∃ ts1, run_task (fun _ _ _ => ⟨false, 2, none, false⟩) none "codex" ["claude"] 2 false
        tsEmpty ⟨0, "main", 0⟩ = .ok ⟨ts1, ⟨1, "main", 0⟩⟩
      ∧ ts1.status = some "failed"
      ∧ ts1.history = tsEmpty.history ++ (engineOrder none "codex" ["claude"]).map (fun e =>
          ⟨"main", none, e, false, 2⟩))
    ∧ csvRunTasks (fun _ _ => 1) "codex" [] [0] = (0, some 1) :=
  c2_main_exhaustion_amended (fun _ _ _ => ⟨false, 2, none, false⟩) none none
    "codex" ["claude"] 2 tsEmpty 0 (fun _ _ => 1) "codex" [] 0 []
    rfl (by decide) (by decide) (fun _ => one_ne_zero)

/-! ## Claim C9 (corrected) -/

/-- C9 counterexample: the AFTER engine order is
`[last_ok, primary] + fallbacks∖{last_ok, primary}`, so when the last
successful engine equals the primary (here `codex`), `codex` occupies
both leading slots, and a follow-up prompt on which every engine fails
attempts `codex` twice — the claim that no backend is attempted more
than once for the same follow-up prompt is false. -/
theorem c9_counterexample :
    afterOrder (some "codex") "codex" ["claude"] = ["codex", "codex", "claude"]
    ∧ (afterOrder (some "codex") "codex" ["claude"]).count "codex" = 2
    ∧ attemptEngines (attemptLoop (fun _ _ _ => ⟨false, 1, none, false⟩) "after" (some 0)
        (afterOrder (some "codex") "codex" ["claude"]) tsEmpty)
      = ["codex", "codex", "claude"] := by
  decide

/-- C9 (amended): the engine order for a follow-up prompt is the last
engine that succeeded for the task (the primary when none has), then
the primary again, then the fallbacks distinct from both.  When the
last-successful engine differs from the primary and the fallback chain
has no duplicates, no engine appears twice; when it equals the primary
(or no engine has succeeded yet), the primary occupies the two leading
slots and is retried once on failure. -/
theorem c9_after_order_amended (lastOk primary : String) (fallbacks : List String)
    (h0 : lastOk ≠ "") (hne : lastOk ≠ primary) (hnd : fallbacks.Nodup) :
    afterOrder (some lastOk) primary fallbacks
        = lastOk :: primary :: fallbacks.filter (fun e => !(e == lastOk) && !(e == primary))
    ∧ (afterOrder (some lastOk) primary fallbacks).Nodup
    ∧ afterOrder none primary fallbacks
        = primary :: primary :: fallbacks.filter (fun e => !(e == primary) && !(e == primary)) := by
  have heq : afterOrder (some lastOk) primary fallbacks
      = lastOk :: primary :: fallbacks.filter (fun e => !(e == lastOk) && !(e == primary)) := by
    unfold afterOrder pyOrS
    dsimp only
    rw [if_pos h0]
    rfl
  refine ⟨heq, ?_, by unfold afterOrder pyOrS; rfl⟩
  rw [heq]
  rw [List.nodup_cons, List.nodup_cons]
  refine ⟨?_, ?_, List.Nodup.filter _ hnd⟩
  · intro hmem
    rcases List.mem_cons.mp hmem with h | h
    · exact hne h
    · have := (List.mem_filter.mp h).2
      simp at this
  · intro hmem
    have := (List.mem_filter.mp hmem).2
    simp at this

theorem c9_after_order_amended_witness :
    afterOrder (some "gemini") "codex" ["claude"]
        = "gemini" :: "codex" :: (["claude"].filter (fun e => !(e == "gemini") && !(e == "codex")))
    ∧ (afterOrder (some "gemini") "codex" ["claude"]).Nodup
    ∧ afterOrder none "codex" ["claude"]
        = "codex" :: "codex" :: (["claude"].filter (fun e => !(e == "codex") && !(e == "codex"))) :=
  c9_after_order_amended "gemini" "codex" ["claude"] (by decide) (by decide) (by decide)

/-! ## AFTER-phase lemmas (for C5) -/

theorem afterOrder_valid (lastOk : Option String) (primary : String) (fallbacks : List String)
    (hp : validEngine primary = true) (hf : ∀ e ∈ fallbacks, validEngine e = true)
    (hlo : validLO lastOk) :
    ∀ e ∈ afterOrder lastOk primary fallbacks, validEngine e = true := by
  intro e he
  unfold afterOrder at he
  rcases List.mem_append.mp he with h | h
  · rcases List.mem_cons.mp h with rfl | h2
    · unfold pyOrS
      cases lastOk with
      | none => exact hp
      | some s =>
        dsimp only
        by_cases hs : s ≠ ""
        · rw [if_pos hs]
          exact hlo s rfl hs
        · rw [if_neg hs]
          exact hp
    · rcases List.mem_cons.mp h2 with rfl | h3
      · exact hp
      · cases h3
  · exact hf e (List.mem_filter.mp h).1

theorem attemptLoop_spec (exec : String → String → Nat → RRm) (phase : String)
    (aIdx : Option Nat) :
    ∀ (order : List String) (ts : TState),
      (∀ e ∈ order, validEngine e = true) →
      ∃ ts1 succ recs, attemptLoop exec phase aIdx order ts = .ok (ts1, succ)
        ∧ ts1.history = ts.history ++ recs
        ∧ (order ≠ [] → recs ≠ [])
        ∧ (∀ r ∈ recs, r.phase = phase ∧ r.afterIndex = aIdx
            ∧ r.ok = (exec r.engine phase (aIdx.getD 0)).ok
            ∧ r.exitCode = (exec r.engine phase (aIdx.getD 0)).exitCode)
        ∧ ts1.status = ts.status
        ∧ (ts1.lastOkEngine = ts.lastOkEngine ∨ ∃ e ∈ order, ts1.lastOkEngine = some e) := by
  intro order
  induction order with
  | nil =>
    intro ts _
    exact ⟨ts, none, [], rfl, by simp, fun h => absurd rfl h, by simp, rfl, Or.inl rfl⟩
  | cons e rest ih =>
    intro ts hv
    have hve : validEngine e = true := hv e (List.mem_cons_self _ _)
    rw [attemptLoop, if_pos hve]
    dsimp only
    by_cases hok : (exec e phase (aIdx.getD 0)).ok = true
    · rw [if_pos hok]
      refine ⟨_, some e,
        [⟨phase, aIdx, e, (exec e phase (aIdx.getD 0)).ok,
          (exec e phase (aIdx.getD 0)).exitCode⟩], rfl, ?_, ?_, ?_, ?_, ?_⟩
      · show (updateSessions (recordStep ts phase aIdx e _) e _).history = _
        rw [(updateSessions_fields _ _ _).1]
        rfl
      · intro _
        simp
      · intro r hr
        rcases List.mem_singleton.mp hr with rfl
        exact ⟨rfl, rfl, rfl, rfl⟩
      · show (updateSessions (recordStep ts phase aIdx e _) e _).status = _
        rw [(updateSessions_fields _ _ _).2.1]
        rfl
      · exact Or.inr ⟨e, List.mem_cons_self _ _, rfl⟩
    · rw [if_neg hok]
      obtain ⟨ts1, succ, recs, h1, h2, _, h4, h5, h6⟩ :=
        ih (updateSessions (recordStep ts phase aIdx e (exec e phase (aIdx.getD 0)))
              e (exec e phase (aIdx.getD 0)))
          (fun x hx => hv x (List.mem_cons_of_mem _ hx))
      refine ⟨ts1, succ,
        ⟨phase, aIdx, e, (exec e phase (aIdx.getD 0)).ok,
          (exec e phase (aIdx.getD 0)).exitCode⟩ :: recs, h1, ?_, ?_, ?_, ?_, ?_⟩
      · rw [h2, (updateSessions_fields _ _ _).1]
        show ts.history ++ [_] ++ recs = _
        rw [List.append_assoc]
        rfl
      · intro _
        simp
      · intro r hr
        rcases List.mem_cons.mp hr with rfl | hr2
        · exact ⟨rfl, rfl, rfl, rfl⟩
        · exact h4 r hr2
      · rw [h5, (updateSessions_fields _ _ _).2.1]
        rfl
      · rcases h6 with h | ⟨x, hx, hxe⟩
        · rw [h, (updateSessions_fields _ _ _).2.2]
          left
          rfl
        · exact Or.inr ⟨x, List.mem_cons_of_mem _ hx, hxe⟩

theorem afterLoop_spec (exec : String → String → Nat → RRm) (primary : String)
    (fallbacks : List String)
    (hp : validEngine primary = true) (hf : ∀ e ∈ fallbacks, validEngine e = true) :
    ∀ (fuel : Nat) (ts : TState) (i : Nat), validLO ts.lastOkEngine →
      ∃ ts1 recs, afterLoop exec primary fallbacks false fuel ts i = .ok (ts1, i + fuel, false)
        ∧ ts1.history = ts.history ++ recs
        ∧ (∀ j, i ≤ j → j < i + fuel → ∃ r ∈ recs, r.afterIndex = some j)
        ∧ (∀ r ∈ recs, r.phase = "after" ∧ ∃ j, i ≤ j ∧ j < i + fuel
            ∧ r.afterIndex = some j
            ∧ r.ok = (exec r.engine "after" j).ok
            ∧ r.exitCode = (exec r.engine "after" j).exitCode)
        ∧ validLO ts1.lastOkEngine := by
  intro fuel
  induction fuel with
  | zero =>
    intro ts i hlo
    refine ⟨ts, [], rfl, by simp, ?_, ?_, hlo⟩
    · intro j hj1 hj2
      omega
    · intro r hr
      cases hr
  | succ n ihn =>
    intro ts i hlo
    rw [afterLoop, if_neg (by decide)]
    obtain ⟨ts1, succ, recs1, h1, h2, h3, h4, h5, h6⟩ :=
      attemptLoop_spec exec "after" (some i) (afterOrder ts.lastOkEngine primary fallbacks) ts
        (afterOrder_valid _ _ _ hp hf hlo)
    rw [h1]
    dsimp only
    have assemble : ∀ ts2 : TState, ts2.history = ts1.history →
        ts2.lastOkEngine = ts1.lastOkEngine →
        ∃ tsf recsf,
          afterLoop exec primary fallbacks false n ts2 (i + 1) = .ok (tsf, i + (n + 1), false)
          ∧ tsf.history = ts.history ++ recsf
          ∧ (∀ j, i ≤ j → j < i + (n + 1) → ∃ r ∈ recsf, r.afterIndex = some j)
          ∧ (∀ r ∈ recsf, r.phase = "after" ∧ ∃ j, i ≤ j ∧ j < i + (n + 1)
              ∧ r.afterIndex = some j
              ∧ r.ok = (exec r.engine "after" j).ok
              ∧ r.exitCode = (exec r.engine "after" j).exitCode)
          ∧ validLO tsf.lastOkEngine := by
      intro ts2 hh hl
      have hlo2 : validLO ts2.lastOkEngine := by
        rw [hl]
        rcases h6 with h | ⟨x, hx, hxe⟩
        · rw [h]
          exact hlo
        · rw [hxe]
          intro s hs hne
          have hxs := Option.some.inj hs
          subst hxs
          exact afterOrder_valid _ _ _ hp hf hlo x hx
      obtain ⟨ts3, recs2, g1, g2, g3, g4, g5⟩ := ihn ts2 (i + 1) hlo2
      refine ⟨ts3, recs1 ++ recs2, ?_, ?_, ?_, ?_, g5⟩
      · rw [show i + (n + 1) = i + 1 + n from by omega]
        exact g1
      · rw [g2, hh, h2, List.append_assoc]
      · intro j hj1 hj2
        rcases Nat.lt_or_ge j (i + 1) with hcase | hcase
        · have hji : j = i := by omega
          subst hji
          have hne1 : recs1 ≠ [] := h3 (by simp [afterOrder])
          rcases List.exists_mem_of_ne_nil recs1 hne1 with ⟨r, hr⟩
          exact ⟨r, List.mem_append_left _ hr, (h4 r hr).2.1⟩
        · obtain ⟨r, hr, hri⟩ := g3 j hcase (by omega)
          exact ⟨r, List.mem_append_right _ hr, hri⟩
      · intro r hr
        rcases List.mem_append.mp hr with hr1 | hr2
        · obtain ⟨hph, hai, hok, hec⟩ := h4 r hr1
          exact ⟨hph, i, le_refl i, by omega, hai, hok, hec⟩
        · obtain ⟨hph, j, hj1, hj2, hai, hok, hec⟩ := g4 r hr2
          exact ⟨hph, j, by omega, by omega, hai, hok, hec⟩
    cases succ with
    | none => exact assemble _ rfl rfl
    | some e => exact assemble _ rfl rfl

/-! ## Claim C5 -/

/-- C5: starting the AFTER phase at follow-up index `a0` with `stop`
never set, `run_task` executes every remaining follow-up prompt
regardless of failures: it returns normally with status `done` and the
cursor advanced to the next task's MAIN state; every follow-up index in
range has at least one appended history record, and every appended
record carries its own index with an outcome equal to what the backend
oracle returned for that engine on that prompt — so a follow-up that
fails on all backends is recorded and the later follow-ups still run,
each with an independently recorded outcome. -/
theorem c5_after_prompt_failures_do_not_abort
    (exec : String → String → Nat → RRm) (primary : String) (fallbacks : List String)
    (afterCount : Nat) (ts0 : TState) (ti a0 : Nat)
    (hp : validEngine primary = true) (hf : ∀ e ∈ fallbacks, validEngine e = true)
    (hlo : validLO ts0.lastOkEngine) (ha : a0 ≤ afterCount) :
    ∃ ts1 recs, run_task exec none primary fallbacks afterCount false ts0 ⟨ti, "after", a0⟩
        = .ok ⟨ts1, ⟨ti + 1, "main", 0⟩⟩
      ∧ ts1.status = some "done"
      ∧ ts1.history = ts0.history ++ recs
      ∧ (∀ j, a0 ≤ j → j < afterCount → ∃ r ∈ recs, r.afterIndex = some j)
      ∧ (∀ r ∈ recs, r.phase = "after" ∧ ∃ j, a0 ≤ j ∧ j < afterCount
          ∧ r.afterIndex = some j
          ∧ r.ok = (exec r.engine "after" j).ok
          ∧ r.exitCode = (exec r.engine "after" j).exitCode) := by
  obtain ⟨ts1, recs, g1, g2, g3, g4, _⟩ :=
    afterLoop_spec exec primary fallbacks hp hf (afterCount - a0) ts0 a0 hlo
  refine ⟨{ ts1 with status := some "done" }, recs, ?_, rfl, g2, ?_, ?_⟩
  · unfold run_task afterPart
    dsimp only [rowEngineRes]
    rw [if_neg (by decide), if_pos rfl]
    try dsimp only
    rw [g1]
    try dsimp only
    rw [if_neg (by decide)]
  · intro j hj1 hj2
    exact g3 j hj1 (by omega)
  · intro r hr
    obtain ⟨hph, j, hj1, hj2, hai, hok, hec⟩ := g4 r hr
    exact ⟨hph, j, hj1, by omega, hai, hok, hec⟩

theorem c5_after_prompt_failures_do_not_abort_witness :
    ∃ ts1 recs, run_task
        (fun _ _ i => if i = 0 then ⟨false, 1, none, false⟩ else ⟨true, 0, none, false⟩)
        none "codex" ["gemini"] 2 false
        { tsEmpty with lastOkEngine := some "claude" } ⟨0, "after", 0⟩
        = .ok ⟨ts1, ⟨1, "main", 0⟩⟩
      ∧ ts1.status = some "done"
      ∧ ts1.history = { tsEmpty with lastOkEngine := some "claude" }.history ++ recs
      ∧ (∀ j, 0 ≤ j → j < 2 → ∃ r ∈ recs, r.afterIndex = some j)
      ∧ (∀ r ∈ recs, r.phase = "after" ∧ ∃ j, 0 ≤ j ∧ j < 2
          ∧ r.afterIndex = some j
          ∧ r.ok = ((fun (_ : String) (_ : String) (i : Nat) =>
              if i = 0 then (⟨false, 1, none, false⟩ : RRm)
              else ⟨true, 0, none, false⟩) r.engine "after" j).ok
          ∧ r.exitCode = ((fun (_ : String) (_ : String) (i : Nat) =>
              if i = 0 then (⟨false, 1, none, false⟩ : RRm)
              else ⟨true, 0, none, false⟩) r.engine "after" j).exitCode) :=
  c5_after_prompt_failures_do_not_abort
    (fun _ _ i => if i = 0 then ⟨false, 1, none, false⟩ else ⟨true, 0, none, false⟩)
    "codex" ["gemini"] 2 { tsEmpty with lastOkEngine := some "claude" } 0 0
    (by decide) (by decide)
    (fun s hs _ => by
      have h := Option.some.inj hs
      subst h
      decide)
    (by decide)
